import Mathlib

/-!
# Verification of the screenshot-testing runner

A shallow embedding of the capture / compare / save pipeline of the
Wonderland Engine screenshot-testing runner, together with proofs of the
behavioural properties stated in its specification.

The embedding follows the TypeScript sources:
* `src/image.ts` — `Image2d`, `basicSquareErrorDistance`, `compare` (RMSE model);
* `src/runner.ts` — `loadReferences`, `ScreenshotRunner._capture`,
  `ScreenshotRunner._captureProjectScreenshots` (with its inner `processEvent`),
  `ScreenshotRunner._compare`, and the module-level `save`;
* `src/config.ts` — the `Scenario` data model;
* `src/utils.ts` — `mkdirp`.

External collaborators (the `pixelmatch` npm package and the PNG codec) are
modelled at their documented interface boundary; such definitions carry a
doc comment starting with `Modelled from the spec:`.
-/

namespace WLEST

/-! ## Data model -/

/-- An uncompressed RGBA image, as produced by the PNG decoder
(`src/image.ts`, interface `Image2d`).  Channel values live in `0..255`;
`data` is the flat RGBA buffer, 4 bytes per pixel. -/
structure Image2d where
  width : Nat
  height : Nat
  data : List Nat
deriving DecidableEq

/-- One test scenario (`src/config.ts`, interface `Scenario`). -/
structure Scenario where
  event : String
  reference : String
  perPixelTolerance : ℚ
  tolerance : ℚ
  index : Nat
deriving DecidableEq

instance : Inhabited Scenario := ⟨⟨"", "", 0, 0, 0⟩⟩

/-! ## Image comparator, RMSE model (`src/image.ts`) -/

/-- `basicSquareErrorDistance` from `src/image.ts`: squared distance of the
four channels starting at byte offset `index`.  JavaScript subtraction of
channel bytes is exact integer arithmetic; an out-of-range typed-array read
is modelled by the default value `0` (it never occurs on well-formed
images, and for the self-comparison theorems the difference is `0` either
way). -/
def basicSquareErrorDistance (data expected : List Nat) (index : Nat) : Int :=
  let r : Int := (expected.getD index 0 : Int) - (data.getD index 0 : Int)
  let g : Int := (expected.getD (index + 1) 0 : Int) - (data.getD (index + 1) 0 : Int)
  let b : Int := (expected.getD (index + 2) 0 : Int) - (data.getD (index + 2) 0 : Int)
  let a : Int := (expected.getD (index + 3) 0 : Int) - (data.getD (index + 3) 0 : Int)
  r * r + g * g + b * b + a * a

/-- The dimension-mismatch message thrown by `compare` in `src/image.ts`. -/
def compareDimensionError (image expected : Image2d) : String :=
  "image has dimensions " ++ toString image.width ++ "x" ++ toString image.height ++
    ",but expected dimensions " ++ toString expected.width ++ "x" ++
    toString expected.height

/-- `compare` from `src/image.ts`.  The source returns
`Math.sqrt(squareSum / pixels)`; since the square root is not rational we
return the radicand `squareSum / pixels` (the mean square error), and state
root-mean-square facts through `Real.sqrt` of this value in the theorems.
A dimension mismatch is the thrown error of the source. -/
def compare (image expected : Image2d) : Except String ℚ :=
  if image.width ≠ expected.width ∨ image.height ≠ expected.height then
    .error (compareDimensionError image expected)
  else
    .ok ((((List.range (image.width * image.height)).foldl
        (fun acc i => acc + basicSquareErrorDistance image.data expected.data (i * 4))
        0 : Int) : ℚ) /
      ((image.width * image.height : Nat) : ℚ))

/-! ## Pixel-count comparator (the external `pixelmatch` collaborator) -/

/-- Modelled from the spec: the per-pixel predicate of the external
`pixelmatch` collaborator — "a pixel counts as different once any channel
deviates by more than `perPixelTolerance`" in the normalized `[0,1]`
per-pixel-threshold model, i.e. `|a - b| / 255 > ppt` on some channel of
pixel `p`. -/
def pixelDiffers (ppt : ℚ) (d1 d2 : List Nat) (p : Nat) : Bool :=
  decide (ppt * 255 < |((d1.getD (4 * p) 0 : ℚ)) - (d2.getD (4 * p) 0 : ℚ)|) ||
  decide (ppt * 255 < |((d1.getD (4 * p + 1) 0 : ℚ)) - (d2.getD (4 * p + 1) 0 : ℚ)|) ||
  decide (ppt * 255 < |((d1.getD (4 * p + 2) 0 : ℚ)) - (d2.getD (4 * p + 2) 0 : ℚ)|) ||
  decide (ppt * 255 < |((d1.getD (4 * p + 3) 0 : ℚ)) - (d2.getD (4 * p + 3) 0 : ℚ)|)

/-- Modelled from the spec: the external `pixelmatch` collaborator.  Its
documented contract: inputs of identical byte length matching
`4 * width * height`, otherwise a hard error ("Inputs must have identical
width and height; mismatch is a hard error, not a fuzzy failure"); on
success, the number of differing pixels. -/
def pixelmatchModel (d1 d2 : List Nat) (w h : Nat) (ppt : ℚ) : Except String Nat :=
  if d1.length ≠ d2.length then .error "Image sizes do not match."
  else if d1.length ≠ 4 * (w * h) then .error "Image data size does not match width/height."
  else .ok ((List.range (w * h)).countP (fun p => pixelDiffers ppt d1 d2 p))

/-- The type of the external pixel comparator consumed by
`ScreenshotRunner._compare`: screenshot data, reference data, width,
height, per-pixel threshold; a thrown error or the differing-pixel count. -/
def PixelMatcher : Type :=
  List Nat → List Nat → Nat → Nat → ℚ → Except String Nat

/-! ## `ScreenshotRunner._compare` (`src/runner.ts`) -/

/-- One iteration of the loop body of `ScreenshotRunner._compare` for
scenario `sc`.  Result `.ok (failed, diffStored)`:
* an `Error` screenshot or reference is an immediate failure (no diff);
* otherwise the pixel comparator runs (its thrown error propagates — the
  source has no try/catch) and the verdict is
  `count / (width * height) > tolerance`, with a diff retained only for a
  tolerance failure and only when `computeDifference` is set. -/
def compareScenario (pm : PixelMatcher) (computeDifference : Bool) (sc : Scenario)
    (screenshot reference : Except String Image2d) : Except String (Bool × Bool) :=
  match screenshot, reference with
  | .error _, _ => .ok (true, false)
  | _, .error _ => .ok (true, false)
  | .ok s, .ok r => do
    let count ← pm s.data r.data s.width s.height sc.perPixelTolerance
    let err : ℚ := (count : ℚ) / ((s.width : ℚ) * (s.height : ℚ))
    if sc.tolerance < err then pure (true, computeDifference)
    else pure (false, false)

/-- `ScreenshotRunner._compare`: iterate `compareScenario` over the
screenshot list, accumulating the failed scenarios (in order) and, per
failure, whether a difference image was retained.  An error thrown by the
comparator aborts the whole pass (the source loop has no try/catch). -/
def compareProject (pm : PixelMatcher) (computeDifference : Bool)
    (scenarios : List Scenario) (screenshots references : List (Except String Image2d)) :
    Except String (List Scenario × List Bool) :=
  (List.range screenshots.length).foldlM
    (fun acc i => do
      let sc := scenarios.getD i default
      let res ← compareScenario pm computeDifference sc
        (screenshots.getD i (.error "")) (references.getD i (.error ""))
      pure (if res.1 then (acc.1 ++ [sc], acc.2 ++ [res.2]) else acc))
    (([], []) : List Scenario × List Bool)

/-! ## Reference loader (`loadReferences`, `src/runner.ts`) -/

/-- The per-scenario error message built by `loadReferences` when reading or
decoding a reference fails: the underlying failure tagged with the
scenario's event name. -/
def referenceError (event msg : String) : String :=
  "Failed to open reference for scenario " ++ event ++ ":\n  " ++ msg

/-- `loadReferences` from `src/runner.ts`.  The combined effect of
`readFile` and `parsePNG` for one path is the external parameter
`readPng`; each scenario is loaded independently inside its own
try/catch, a failure becoming an `Error` value for that scenario only.
`Promise.all` over the per-scenario tasks keeps the order of the input
list, which the sequential `map` reflects. -/
def loadReferences (readPng : String → Except String Image2d)
    (scenarios : List Scenario) : List (Except String Image2d) :=
  scenarios.map (fun s =>
    match readPng s.reference with
    | .ok img => .ok img
    | .error m => .error (referenceError s.event m))

/-! ## Event-synchronized capturer (`_captureProjectScreenshots`, `src/runner.ts`) -/

/-- The placeholder stored in every result slot before navigation starts
(`results[i] = new Error(...)` in `_captureProjectScreenshots`). -/
def wasntDispatched (event : String) : String :=
  "event '" ++ event ++ "' wasn't dispatched"

/-- The initialization loop of `_captureProjectScreenshots`: the result
array starts as `new Array(count).fill(null)` (modelled by `replicate count
none`) and the setup loop then stores the placeholder error for each index.
`none` models the JavaScript `null`/`undefined`; a populated slot is
`some r`. -/
def initResults (scenarios : List Scenario) : List (Option (Except String Nat)) :=
  (List.range scenarios.length).foldl
    (fun acc i => acc.set i (some (.error (wasntDispatched (scenarios.getD i default).event))))
    (List.replicate scenarios.length none)

/-- The `eventToScenario` map of `_captureProjectScreenshots`: built by
`eventToScenario.set(event, i)` over the scenario list in order, so a later
scenario with the same event name wins, exactly like `Map.set`. -/
def eventToScenario (scenarios : List Scenario) : String → Option Nat :=
  (List.range scenarios.length).foldl
    (fun m i => fun e => if e = (scenarios.getD i default).event then some i else m e)
    (fun _ => none)

/-- The warning printed by `processEvent` for an event id that is not
declared by the project. -/
def nonExistingEventWarning (projectName e : String) : String :=
  "[" ++ projectName ++ "] Received non-existing event: '" ++ e ++ "'"

/-- The mutable state `processEvent` closes over: the per-scenario result
slots, the received-event counter, and the warnings it logged.  A
screenshot byte buffer is abstracted as a `Nat` token. -/
structure CapState where
  results : List (Option (Except String Nat))
  eventCount : Nat
  warnings : List String

/-- `processEvent` from `_captureProjectScreenshots` (`src/runner.ts`):
an event id missing from `eventToScenario` is logged and dropped; a
declared event id takes a screenshot (`shot`, the value
`page.screenshot()` returns at this call), stores it at the scenario's
index, and increments the received-event counter.  The map is never
mutated, so a repeated event id takes this same branch again. -/
def processEvent (scenarios : List Scenario) (projectName : String) (shot : Nat)
    (e : String) (st : CapState) : CapState :=
  match eventToScenario scenarios e with
  | none => { st with warnings := st.warnings ++ [nonExistingEventWarning projectName e] }
  | some i =>
    { st with
        results := st.results.set i (some (.ok shot))
        eventCount := st.eventCount + 1 }

/-- The capture state when `_captureProjectScreenshots` starts waiting:
freshly initialized slots, no event received, no warning. -/
def initCapState (scenarios : List Scenario) : CapState :=
  ⟨initResults scenarios, 0, []⟩

/-- A project run at the event level: the guest application invokes the
exposed callback once per element of `events` (event id paired with the
screenshot bytes that `page.screenshot()` yields at that moment), in
order; `runEvents` folds `processEvent` over those invocations. -/
def runEvents (scenarios : List Scenario) (projectName : String)
    (events : List (String × Nat)) (st : CapState) : CapState :=
  events.foldl (fun s p => processEvent scenarios projectName p.2 p.1 s) st

/-! ## Context pool scheduler (`ScreenshotRunner._capture`, `src/runner.ts`) -/

/-- `contexts.findIndex((x) => x !== null)` from `_capture`: index of the
first free slot, `none` for JavaScript's `-1`. -/
def findFreeIndex : List (Option Nat) → Option Nat
  | [] => none
  | some _ :: _ => some 0
  | none :: rest => (findFreeIndex rest).map (· + 1)

/-- The computed upper bound on browser contexts from `ScreenshotRunner.run`:
`config.maxContexts ?? Math.min(Math.max(2, cpus().length), 6)`. -/
def contextsUpperBound (maxContexts : Option Nat) (cpuCount : Nat) : Nat :=
  maxContexts.getD (min (max 2 cpuCount) 6)

/-- The number of contexts actually created by `ScreenshotRunner.run`:
`Math.min(projects.length, contextsUpperBound)`. -/
def contextsCount (maxContexts : Option Nat) (cpuCount projectCount : Nat) : Nat :=
  min projectCount (contextsUpperBound maxContexts cpuCount)

/-- State of the `_capture` scheduling loop, between suspension points of
the single-threaded event loop.
* `next` — the loop index `i`: projects `0 .. next-1` have been started;
* `slots` — the `contexts` array: `some c` is a free browser context `c`,
  `none` marks a context taken by a running capturer;
* `running` — the in-flight capture tasks `(project, slot, context)`,
  i.e. the `result[i]` promises not yet settled;
* `results` — a settled `result[p]` holds `some v`; unsettled or
  not-yet-started entries hold `none`. -/
structure PoolState (Out : Type) where
  next : Nat
  slots : List (Option Nat)
  running : List (Nat × Nat × Nat)
  results : List (Option Out)

/-- The interleaving semantics of `_capture` for `N` projects whose capture
outputs are `f` (project `p`'s settled value is `f p`, standing for
`_captureProjectScreenshots(context, p, projects[p])`).
* `start`: the loop body, runnable when `i < N` and polling found a free
  slot `j` holding context `c`: the slot is set to `null`, the capturer for
  project `next` starts on `c`, and the loop advances — projects are
  started in submission order by construction;
* `finish`: a running capturer settles (success or failure alike): its
  `finally` handler restores the context into its slot and its promise
  fulfills `results[p]`.  Any interleaving of finishes with the loop is
  admitted, which covers every schedule of the event loop. -/
inductive PoolStep (N : Nat) {Out : Type} (f : Nat → Out) :
    PoolState Out → PoolState Out → Prop
  | start (s : PoolState Out) (j c : Nat)
      (hn : s.next < N)
      (hj : findFreeIndex s.slots = some j)
      (hc : s.slots.getD j none = some c) :
      PoolStep N f s
        ⟨s.next + 1, s.slots.set j none, (s.next, j, c) :: s.running, s.results⟩
  | finish (s : PoolState Out) (p j c : Nat)
      (hm : (p, j, c) ∈ s.running) :
      PoolStep N f s
        ⟨s.next, s.slots.set j (some c), s.running.erase (p, j, c),
          s.results.set p (some (f p))⟩

/-- The state in which `_capture` enters its loop: `K` distinct contexts
(the browser's default context plus `K - 1` fresh ones), all free, no task
running, `result` an `N`-element array with no settled entry. -/
def initPool (Out : Type) (N K : Nat) : PoolState Out :=
  ⟨0, (List.range K).map some, [], List.replicate N none⟩

/-- States the `_capture` loop can reach from its initial state. -/
def PoolReachable (N K : Nat) {Out : Type} (f : Nat → Out) (s : PoolState Out) : Prop :=
  Relation.ReflTransGen (PoolStep N f) (initPool Out N K) s

/-! ## Artifact writer (`save`, `src/runner.ts`) -/

/-- `basename` of a path, per `node:path` on the slash-separated paths this
runner builds. -/
def basename (p : String) : String :=
  ((p.splitOn "/").getLastD p)

/-- The path `save` writes a scenario's capture to: under the project
output directory when one is configured, over the scenario's own reference
file otherwise. -/
def savePath (output : Option String) (s : Scenario) : String :=
  match output with
  | some o => o ++ "/" ++ basename s.reference
  | none => s.reference

/-- The write `save` performs for one scenario, as `(path, bytes)`: an
`Error` capture result is skipped (`if (data instanceof Error) return`).
An out-of-range `scenario.index` reads `undefined` in the source, whose
write then rejects and is logged, producing no file; both no-file cases
are `none`. -/
def saveEntry (output : Option String) (pngs : List (Except String Nat))
    (s : Scenario) : Option (String × Nat) :=
  match pngs.get? s.index with
  | some (.ok d) => some (savePath output s, d)
  | some (.error _) => none
  | none => none

/-- `save` from `src/runner.ts`: the files written for a scenario list
(each write is best-effort and independent; the value is the list of
performed writes in scenario order). -/
def save (output : Option String) (scenarios : List Scenario)
    (pngs : List (Except String Nat)) : List (String × Nat) :=
  if scenarios.isEmpty then []
  else scenarios.filterMap (saveEntry output pngs)

/-! ## `mkdirp` (`src/utils.ts`) -/

/-- What a path names on the modelled file system. -/
inductive FsNode
  | directory
  | file
deriving DecidableEq

/-- The result of `stat`: `isDirectoryMethod` stands for the *method*
`Stats.isDirectory` — the source reads `s.isDirectory` without calling it,
so the tested value is the method object itself. -/
structure Stats where
  isDirectoryResult : Bool

/-- Modelled from the spec: `fs.stat`, which resolves with the node's
stats and rejects for a missing path (the repository treats the file
system as an external collaborator). -/
def fsStat (fs : String → Option FsNode) (path : String) : Except String Stats :=
  match fs path with
  | some .directory => .ok ⟨true⟩
  | some .file => .ok ⟨false⟩
  | none => .error "ENOENT"

/-- Modelled from the spec: `fs.mkdir`, which rejects when the path
already exists (`EEXIST`) and succeeds otherwise. -/
def fsMkdir (fs : String → Option FsNode) (path : String) : Except String Unit :=
  match fs path with
  | some _ => .error "EEXIST"
  | none => .ok ()

/-- The truthiness of the expression `s.isDirectory` in `mkdirp`
(`src/utils.ts`): the property is a *method reference*, not a call, and a
function object is always truthy, whatever `isDirectory()` would return. -/
def isDirectoryMethodTruthy (_s : Stats) : Bool := true

/-- `mkdirp` from `src/utils.ts`, line by line: `stat` the path; if it
resolves, test `!s.isDirectory` (the uncalled method reference — see
`isDirectoryMethodTruthy`) and throw when that test passes; any throw in
the `try` block, including the one just built, lands in the `catch`, which
returns `mkdir(path)`. -/
def mkdirp (fs : String → Option FsNode) (path : String) : Except String Unit :=
  match fsStat fs path with
  | .ok s =>
    if !isDirectoryMethodTruthy s then
      fsMkdir fs path
    else
      .ok ()
  | .error _ => fsMkdir fs path

/-! ## Helper lemmas -/

theorem basicSquareErrorDistance_self (d : List Nat) (i : Nat) :
    basicSquareErrorDistance d d i = 0 := by
  simp [basicSquareErrorDistance]

theorem foldl_bsed_self (d : List Nat) (l : List Nat) (acc : Int) :
    l.foldl (fun acc i => acc + basicSquareErrorDistance d d (i * 4)) acc = acc := by
  induction l generalizing acc with
  | nil => rfl
  | cons x xs ih => simp [List.foldl_cons, basicSquareErrorDistance_self, ih]

theorem pixelDiffers_self (ppt : ℚ) (d : List Nat) (p : Nat) (h : 0 ≤ ppt) :
    pixelDiffers ppt d d p = false := by
  have hn : ¬ (ppt * 255 < 0) := not_lt.mpr (by positivity)
  simp [pixelDiffers, hn]

theorem compareScenario_ok (pm : PixelMatcher) (cd : Bool) (sc : Scenario)
    (s r : Image2d) (k : Nat)
    (hpm : pm s.data r.data s.width s.height sc.perPixelTolerance = .ok k) :
    compareScenario pm cd sc (.ok s) (.ok r) =
      if sc.tolerance < (k : ℚ) / ((s.width : ℚ) * (s.height : ℚ)) then .ok (true, cd)
      else .ok (false, false) := by
  simp only [compareScenario, hpm]
  change (if sc.tolerance < (k : ℚ) / ((s.width : ℚ) * (s.height : ℚ)) then
      (pure (true, cd) : Except String (Bool × Bool)) else pure (false, false)) = _
  split <;> rfl

/-- Claim C4: in the per-pixel-count comparison model, for equal-dimension
images on which the pixel comparator reports exactly `k` differing pixels,
the scenario passes when `k/(w*h) ≤ tolerance` and fails when
`k/(w*h) > tolerance`; the boundary `k/(w*h) = tolerance` is a pass
(failure uses strict greater-than). -/
theorem pixel_count_verdict (pm : PixelMatcher) (cd : Bool) (sc : Scenario)
    (s r : Image2d) (k : Nat)
    (hpm : pm s.data r.data s.width s.height sc.perPixelTolerance = .ok k) :
    (sc.tolerance < (k : ℚ) / ((s.width : ℚ) * (s.height : ℚ)) →
      compareScenario pm cd sc (.ok s) (.ok r) = .ok (true, cd))
  ∧ ((k : ℚ) / ((s.width : ℚ) * (s.height : ℚ)) ≤ sc.tolerance →
      compareScenario pm cd sc (.ok s) (.ok r) = .ok (false, false))
  ∧ ((k : ℚ) / ((s.width : ℚ) * (s.height : ℚ)) = sc.tolerance →
      compareScenario pm cd sc (.ok s) (.ok r) = .ok (false, false)) := by
  refine ⟨fun h => ?_, fun h => ?_, fun h => ?_⟩
  · rw [compareScenario_ok pm cd sc s r k hpm, if_pos h]
  · rw [compareScenario_ok pm cd sc s r k hpm, if_neg (not_lt.mpr h)]
  · rw [compareScenario_ok pm cd sc s r k hpm, if_neg (not_lt.mpr (le_of_eq h))]

/-- Witness for C4: a 1×1 all-black screenshot against a 1×1 all-white
reference differs in its single pixel; with tolerance `0` the scenario
fails, and with tolerance `1` (the boundary `k/(w*h) = 1`) it passes. -/
theorem pixel_count_verdict_witness :
    compareScenario pixelmatchModel false ⟨"e", "r", 0, 0, 0⟩
      (.ok ⟨1, 1, [0, 0, 0, 255]⟩) (.ok ⟨1, 1, [255, 255, 255, 255]⟩) = .ok (true, false)
  ∧ compareScenario pixelmatchModel false ⟨"e", "r", 0, 1, 0⟩
      (.ok ⟨1, 1, [0, 0, 0, 255]⟩) (.ok ⟨1, 1, [255, 255, 255, 255]⟩) = .ok (false, false) := by
  have hpm : pixelmatchModel [0, 0, 0, 255] [255, 255, 255, 255] 1 1 0 = .ok 1 := by
    unfold pixelmatchModel
    rw [if_neg (by decide), if_neg (by decide)]
    have hp : pixelDiffers 0 [0, 0, 0, 255] [255, 255, 255, 255] 0 = true := by
      norm_num [pixelDiffers]
    rw [show List.range 1 = [0] from rfl]
    norm_num [List.countP_cons, List.countP_nil, hp]
  constructor
  · exact (pixel_count_verdict pixelmatchModel false ⟨"e", "r", 0, 0, 0⟩
      ⟨1, 1, [0, 0, 0, 255]⟩ ⟨1, 1, [255, 255, 255, 255]⟩ 1 hpm).1 (by norm_num)
  · exact (pixel_count_verdict pixelmatchModel false ⟨"e", "r", 0, 1, 0⟩
      ⟨1, 1, [0, 0, 0, 255]⟩ ⟨1, 1, [255, 255, 255, 255]⟩ 1 hpm).2.2 (by norm_num)

/-- Claim C5: comparing an image against itself yields zero measured
difference — zero mean square error (hence zero RMSE) in the RMSE model
and zero differing pixels in the pixel-count model — and a passing verdict
at any nonnegative tolerance. -/
theorem self_compare_passes (x : Image2d) (sc : Scenario) (cd : Bool)
    (hwf : x.data.length = 4 * (x.width * x.height))
    (hppt : 0 ≤ sc.perPixelTolerance) (htol : 0 ≤ sc.tolerance) :
    (∃ q, compare x x = .ok q ∧ q = 0 ∧ Real.sqrt (q : ℝ) = 0)
  ∧ pixelmatchModel x.data x.data x.width x.height sc.perPixelTolerance = .ok 0
  ∧ compareScenario pixelmatchModel cd sc (.ok x) (.ok x) = .ok (false, false) := by
  have hpm : pixelmatchModel x.data x.data x.width x.height sc.perPixelTolerance = .ok 0 := by
    unfold pixelmatchModel
    rw [if_neg (by simp), if_neg (not_ne_iff.mpr hwf)]
    congr 1
    exact List.countP_eq_zero.mpr (fun p _ => by
      simp [pixelDiffers_self sc.perPixelTolerance x.data p hppt])
  refine ⟨⟨0, ?_, rfl, by simp⟩, hpm, ?_⟩
  · unfold compare
    rw [if_neg (by simp), foldl_bsed_self]
    norm_num
  · rw [compareScenario_ok pixelmatchModel cd sc x x 0 hpm,
      if_neg (not_lt.mpr (by simpa using htol))]

/-- Witness for C5: a concrete 1×2 image compared against itself. -/
theorem self_compare_passes_witness :
    compare ⟨1, 2, [1, 2, 3, 255, 9, 8, 7, 255]⟩ ⟨1, 2, [1, 2, 3, 255, 9, 8, 7, 255]⟩ = .ok 0
  ∧ compareScenario pixelmatchModel true ⟨"e", "r", 0, 0, 0⟩
      (.ok ⟨1, 2, [1, 2, 3, 255, 9, 8, 7, 255]⟩)
      (.ok ⟨1, 2, [1, 2, 3, 255, 9, 8, 7, 255]⟩) = .ok (false, false) := by
  have h := self_compare_passes ⟨1, 2, [1, 2, 3, 255, 9, 8, 7, 255]⟩ ⟨"e", "r", 0, 0, 0⟩ true
    (by decide) (by norm_num) (by norm_num)
  obtain ⟨⟨q, hq, hq0, _⟩, _, hpass⟩ := h
  exact ⟨hq0 ▸ hq, hpass⟩

/-- Claim C3 counterexample: a 1×1 screenshot against a 2×1 reference.  The
comparison pass does not record the scenario as failed and continue — the
comparator's hard dimension-mismatch error propagates out of
`_compare` (which has no try/catch), aborting the whole pass. -/
theorem dimension_mismatch_cex :
    compareProject pixelmatchModel false [⟨"m", "r", 0, 0, 0⟩]
      [.ok ⟨1, 1, [0, 0, 0, 255]⟩] [.ok ⟨2, 1, [0, 0, 0, 255, 0, 0, 0, 255]⟩]
      = .error "Image sizes do not match."
  ∧ ∀ out, compareProject pixelmatchModel false [⟨"m", "r", 0, 0, 0⟩]
      [.ok ⟨1, 1, [0, 0, 0, 255]⟩] [.ok ⟨2, 1, [0, 0, 0, 255, 0, 0, 0, 255]⟩]
      ≠ .ok out := by
  have he : compareProject pixelmatchModel false [⟨"m", "r", 0, 0, 0⟩]
      [.ok ⟨1, 1, [0, 0, 0, 255]⟩] [.ok ⟨2, 1, [0, 0, 0, 255, 0, 0, 0, 255]⟩]
      = .error "Image sizes do not match." := rfl
  exact ⟨he, fun out h => by rw [he] at h; exact Except.noConfusion h⟩

/-- Claim C3 (amended): when the captured screenshot and the reference
have mismatched pixel-buffer sizes at compare time, the comparator raises
a hard error which `_compare` does not catch: the pass aborts with that
error instead of recording the scenario as failed and continuing. -/
theorem dimension_mismatch_aborts (cd : Bool) (sc : Scenario) (s r : Image2d)
    (hlen : s.data.length ≠ r.data.length) :
    compareScenario pixelmatchModel cd sc (.ok s) (.ok r) = .error "Image sizes do not match."
  ∧ compareProject pixelmatchModel cd [sc] [.ok s] [.ok r]
      = .error "Image sizes do not match." := by
  have hpm0 : pixelmatchModel s.data r.data s.width s.height sc.perPixelTolerance
      = .error "Image sizes do not match." := by
    unfold pixelmatchModel
    rw [if_pos hlen]
  have hstep : compareScenario pixelmatchModel cd sc (.ok s) (.ok r)
      = .error "Image sizes do not match." := by
    simp only [compareScenario, hpm0]
    rfl
  refine ⟨hstep, ?_⟩
  simp only [compareProject, List.length_singleton, List.range_succ, List.range_zero,
    List.nil_append, List.foldlM_cons, List.foldlM_nil, List.getD_cons_zero, hstep]
  rfl

/-- Witness for the amended C3: the concrete mismatched pair. -/
theorem dimension_mismatch_aborts_witness :
    compareScenario pixelmatchModel true ⟨"m", "r", 0, 0, 0⟩
      (.ok ⟨1, 1, [0, 0, 0, 255]⟩) (.ok ⟨2, 1, [0, 0, 0, 255, 0, 0, 0, 255]⟩)
      = .error "Image sizes do not match." :=
  (dimension_mismatch_aborts true ⟨"m", "r", 0, 0, 0⟩ ⟨1, 1, [0, 0, 0, 255]⟩
    ⟨2, 1, [0, 0, 0, 255, 0, 0, 0, 255]⟩ (by decide)).1

theorem getD_map_of_lt {α β : Type _} (f : α → β) (l : List α) (i : Nat) (d : β) (d0 : α)
    (h : i < l.length) : (l.map f).getD i d = f (l.getD i d0) := by
  induction l generalizing i with
  | nil => simp at h
  | cons x xs ih =>
    cases i with
    | zero => simp
    | succ n => simpa using ih n (by simpa using h)

/-- Claim C6: `loadReferences` returns one entry per scenario, same order:
the decoded image when reading the scenario's reference succeeds, an
`Error` tagged with the scenario's event name when it fails; and each
entry depends only on that scenario's own reference, so one scenario's
failure never rejects the batch nor affects a sibling's result. -/
theorem load_references_batch (readPng readPng2 : String → Except String Image2d)
    (scenarios : List Scenario) :
    (loadReferences readPng scenarios).length = scenarios.length
  ∧ ∀ i, i < scenarios.length →
      ((∀ img, readPng (scenarios.getD i default).reference = .ok img →
          (loadReferences readPng scenarios).getD i (.error "") = .ok img)
        ∧ (∀ m, readPng (scenarios.getD i default).reference = .error m →
            (loadReferences readPng scenarios).getD i (.error "")
              = .error (referenceError (scenarios.getD i default).event m))
        ∧ (readPng2 (scenarios.getD i default).reference
              = readPng (scenarios.getD i default).reference →
            (loadReferences readPng2 scenarios).getD i (.error "")
              = (loadReferences readPng scenarios).getD i (.error ""))) := by
  refine ⟨by simp [loadReferences], fun i hi => ?_⟩
  have h1 : (loadReferences readPng scenarios).getD i (.error "") =
      (match readPng (scenarios.getD i default).reference with
        | .ok img => .ok img
        | .error m => .error (referenceError (scenarios.getD i default).event m)) :=
    getD_map_of_lt _ scenarios i _ default hi
  have h2 : (loadReferences readPng2 scenarios).getD i (.error "") =
      (match readPng2 (scenarios.getD i default).reference with
        | .ok img => .ok img
        | .error m => .error (referenceError (scenarios.getD i default).event m)) :=
    getD_map_of_lt _ scenarios i _ default hi
  refine ⟨fun img h => ?_, fun m h => ?_, fun h => ?_⟩
  · rw [h1, h]
  · rw [h1, h]
  · rw [h1, h2, h]

/-- Witness for C6: one existing and one missing reference; only the
missing scenario's entry is an `Error`, tagged with its event name. -/
theorem load_references_batch_witness :
    (loadReferences
        (fun p => if p = "a.png" then .ok ⟨1, 1, [0, 0, 0, 255]⟩ else .error "ENOENT")
        [⟨"a", "a.png", 0, 0, 0⟩, ⟨"b", "b.png", 0, 0, 1⟩]).getD 0 (.error "")
      = .ok ⟨1, 1, [0, 0, 0, 255]⟩
  ∧ (loadReferences
        (fun p => if p = "a.png" then .ok ⟨1, 1, [0, 0, 0, 255]⟩ else .error "ENOENT")
        [⟨"a", "a.png", 0, 0, 0⟩, ⟨"b", "b.png", 0, 0, 1⟩]).getD 1 (.error "")
      = .error (referenceError "b" "ENOENT") := by
  have h := load_references_batch
    (fun p => if p = "a.png" then .ok ⟨1, 1, [0, 0, 0, 255]⟩ else .error "ENOENT")
    (fun p => if p = "a.png" then .ok ⟨1, 1, [0, 0, 0, 255]⟩ else .error "ENOENT")
    [⟨"a", "a.png", 0, 0, 0⟩, ⟨"b", "b.png", 0, 0, 1⟩]
  exact ⟨(h.2 0 (by decide)).1 ⟨1, 1, [0, 0, 0, 255]⟩ rfl,
    (h.2 1 (by decide)).2.1 "ENOENT" rfl⟩

/-- Claim C8 (code_bug evaluation): `mkdirp` on an existing directory
resolves without error, as the claim states; but on a path that exists and
is a regular file it also resolves without error, because the source tests
the truthiness of the uncalled method reference `s.isDirectory`, which is
always truthy, so the intended failure branch is unreachable. -/
theorem mkdirp_on_existing_path :
    mkdirp (fun q => if q = "out" then some FsNode.directory else none) "out" = .ok ()
  ∧ mkdirp (fun q => if q = "out" then some FsNode.file else none) "out" = .ok () :=
  ⟨rfl, rfl⟩

/-- Claim C10: a scenario whose capture result is an `Error` produces no
write in `save` — in particular, when the save policy writes back over
references (`output = null`) and the scenario reference paths are
distinct, no write of the batch targets that scenario's golden reference
file. -/
theorem save_skips_error_captures (output : Option String) (scenarios : List Scenario)
    (pngs : List (Except String Nat)) (s : Scenario) (msg : String)
    (hs : s ∈ scenarios)
    (he : pngs.get? s.index = some (.error msg))
    (hnd : (scenarios.map Scenario.reference).Nodup) :
    saveEntry output pngs s = none
  ∧ ∀ w ∈ save none scenarios pngs, w.1 ≠ s.reference := by
  have h1 : ∀ o, saveEntry o pngs s = none := fun o => by
    unfold saveEntry
    rw [he]
  refine ⟨h1 output, fun w hw hcontra => ?_⟩
  unfold save at hw
  rw [if_neg (by simp [List.ne_nil_of_mem hs])] at hw
  obtain ⟨s2, hs2, hsome⟩ := List.mem_filterMap.mp hw
  unfold saveEntry at hsome
  split at hsome
  case _ d hget =>
    have hw1 : w.1 = s2.reference := by
      rw [← Option.some_inj.mp hsome]
      rfl
    have hrefs : s2.reference = s.reference := hw1 ▸ hcontra
    have hss : s2 = s := List.inj_on_of_nodup_map hnd hs2 hs hrefs
    rw [hss, he] at hget
    exact Except.noConfusion (Option.some_inj.mp hget)
  case _ => exact Option.noConfusion hsome
  case _ => exact Option.noConfusion hsome

/-- Witness for C10: scenario "b" never fired (its capture is the
placeholder `Error`); `save` with the overwrite-references policy writes
"a.png" only and never "b.png". -/
theorem save_skips_error_captures_witness :
    saveEntry none [.ok 7, .error "event 'b' wasn't dispatched"] ⟨"b", "b.png", 0, 0, 1⟩ = none
  ∧ ∀ w ∈ save none [⟨"a", "a.png", 0, 0, 0⟩, ⟨"b", "b.png", 0, 0, 1⟩]
      [.ok 7, .error "event 'b' wasn't dispatched"],
      w.1 ≠ "b.png" := by
  have h := save_skips_error_captures none
    [⟨"a", "a.png", 0, 0, 0⟩, ⟨"b", "b.png", 0, 0, 1⟩]
    [.ok 7, .error "event 'b' wasn't dispatched"]
    ⟨"b", "b.png", 0, 0, 1⟩ "event 'b' wasn't dispatched"
    (by simp) rfl (by simp)
  exact h

theorem eventToScenario_aux (scenarios : List Scenario) (e : String) :
    ∀ n i, ((List.range n).foldl
      (fun m j => fun e2 => if e2 = (scenarios.getD j default).event then some j else m e2)
      (fun _ => none)) e = some i →
      i < n ∧ (scenarios.getD i default).event = e := by
  intro n
  induction n with
  | zero =>
    intro i h
    simp at h
  | succ n ih =>
    intro i h
    rw [List.range_succ, List.foldl_append] at h
    simp only [List.foldl_cons, List.foldl_nil] at h
    split at h
    next hc =>
      obtain rfl : n = i := Option.some_inj.mp h
      exact ⟨Nat.lt_succ_self _, hc.symm⟩
    next =>
      obtain ⟨hlt, hev⟩ := ih i h
      exact ⟨Nat.lt_succ_of_lt hlt, hev⟩

theorem eventToScenario_lt (scenarios : List Scenario) (e : String) (i : Nat)
    (h : eventToScenario scenarios e = some i) :
    i < scenarios.length ∧ (scenarios.getD i default).event = e := by
  unfold eventToScenario at h
  exact eventToScenario_aux scenarios e scenarios.length i h

theorem foldl_set_length {α : Type _} (g : Nat → α) (ns : List Nat) (l : List α) :
    (ns.foldl (fun acc i => acc.set i (g i)) l).length = l.length := by
  induction ns generalizing l with
  | nil => rfl
  | cons x xs ih => simp only [List.foldl_cons, ih, List.length_set]

theorem foldl_range_set_getElem? {α : Type _} (g : Nat → α) (n : Nat)
    (l : List (Option α)) (j : Nat) :
    ((List.range n).foldl (fun acc i => acc.set i (some (g i))) l)[j]? =
      if j < n ∧ j < l.length then some (some (g j)) else l[j]? := by
  induction n with
  | zero => simp
  | succ n ih =>
    rw [List.range_succ, List.foldl_append]
    simp only [List.foldl_cons, List.foldl_nil]
    rw [List.getElem?_set]
    by_cases hij : n = j
    · subst hij
      rw [if_pos rfl, foldl_set_length (fun i => some (g i))]
      by_cases hn : n < l.length
      · rw [if_pos hn, if_pos ⟨Nat.lt_succ_self n, hn⟩]
      · rw [if_neg hn, if_neg (by omega), List.getElem?_eq_none (by omega)]
    · rw [if_neg hij, ih]
      by_cases hj : j < n ∧ j < l.length
      · rw [if_pos hj, if_pos ⟨Nat.lt_succ_of_lt hj.1, hj.2⟩]
      · rw [if_neg hj, if_neg (by omega)]

theorem initResults_getElem? (scenarios : List Scenario) (j : Nat) :
    (initResults scenarios)[j]? =
      if j < scenarios.length then
        some (some (.error (wasntDispatched ((scenarios.getD j default).event))))
      else none := by
  unfold initResults
  rw [foldl_range_set_getElem? (fun i => Except.error (wasntDispatched ((scenarios.getD i default).event)))]
  by_cases hj : j < scenarios.length
  · rw [if_pos ⟨hj, by simpa using hj⟩, if_pos hj]
  · rw [if_neg (by simp [hj]), if_neg hj, List.getElem?_eq_none (by simpa using not_lt.mp hj)]

theorem initResults_length (scenarios : List Scenario) :
    (initResults scenarios).length = scenarios.length := by
  unfold initResults
  rw [foldl_set_length (fun i => some (Except.error (wasntDispatched ((scenarios.getD i default).event))))]
  exact List.length_replicate _ _

theorem processEvent_results_length (scenarios : List Scenario) (name : String)
    (shot : Nat) (e : String) (st : CapState) :
    (processEvent scenarios name shot e st).results.length = st.results.length := by
  unfold processEvent
  split
  · rfl
  · simp only [List.length_set]

theorem runEvents_results_length (scenarios : List Scenario) (name : String)
    (events : List (String × Nat)) : ∀ st : CapState,
    (runEvents scenarios name events st).results.length = st.results.length := by
  induction events with
  | nil => intro st; rfl
  | cons pr rest ih =>
    intro st
    unfold runEvents
    rw [List.foldl_cons]
    exact (ih (processEvent scenarios name pr.2 pr.1 st)).trans
      (processEvent_results_length scenarios name pr.2 pr.1 st)

theorem runEvents_untouched (scenarios : List Scenario) (name : String)
    (events : List (String × Nat)) (i : Nat) :
    ∀ st : CapState, (∀ p ∈ events, p.1 ≠ (scenarios.getD i default).event) →
    (runEvents scenarios name events st).results[i]? = st.results[i]? := by
  induction events with
  | nil => intro st _; rfl
  | cons pr rest ih =>
    intro st hne
    have hstep : (processEvent scenarios name pr.2 pr.1 st).results[i]? = st.results[i]? := by
      unfold processEvent
      split
      · rfl
      · case _ k heq =>
        have hk := eventToScenario_lt scenarios pr.1 k heq
        have hki : k ≠ i := by
          intro hcon
          exact hne pr (List.mem_cons_self pr rest) (by rw [← hk.2, hcon])
        simp only [List.getElem?_set_ne hki]
    unfold runEvents
    rw [List.foldl_cons]
    exact (ih (processEvent scenarios name pr.2 pr.1 st)
      (fun p hp => hne p (List.mem_cons_of_mem pr hp))).trans hstep

theorem runEvents_populated (scenarios : List Scenario) (name : String)
    (events : List (String × Nat)) :
    ∀ st : CapState, st.results.length = scenarios.length →
    (∀ i, i < scenarios.length → ∃ r, st.results[i]? = some (some r)) →
    ∀ i, i < scenarios.length →
      ∃ r, (runEvents scenarios name events st).results[i]? = some (some r) := by
  induction events with
  | nil => intro st _ hall i hi; exact hall i hi
  | cons pr rest ih =>
    intro st hlen hall
    have hlen2 : (processEvent scenarios name pr.2 pr.1 st).results.length = scenarios.length :=
      (processEvent_results_length scenarios name pr.2 pr.1 st).trans hlen
    have hall2 : ∀ i, i < scenarios.length →
        ∃ r, (processEvent scenarios name pr.2 pr.1 st).results[i]? = some (some r) := by
      intro i hi
      unfold processEvent
      split
      · exact hall i hi
      · case _ k heq =>
        by_cases hik : k = i
        · subst hik
          exact ⟨.ok pr.2, by simp [List.getElem?_set_self (by omega : k < st.results.length)]⟩
        · simp only [List.getElem?_set_ne hik]
          exact hall i hi
    intro i hi
    unfold runEvents
    rw [List.foldl_cons]
    exact ih (processEvent scenarios name pr.2 pr.1 st) hlen2 hall2 i hi

/-- Claim C7: every scenario result slot is initialized to the
"event wasn't dispatched" placeholder `Error` before navigation, a slot is
only ever replaced by a captured screenshot, so after any event sequence
every slot still holds a well-typed value (never `null`/`undefined`); a
scenario whose event never fired still holds the placeholder when the
timeout elapses, and an `Error`-valued slot is reported by the comparison
pass as a failed scenario rather than raising an exception. -/
theorem capture_slots_always_populated (scenarios : List Scenario) (name : String)
    (events : List (String × Nat)) :
    (runEvents scenarios name events (initCapState scenarios)).results.length
      = scenarios.length
  ∧ (∀ i, i < scenarios.length →
      (initCapState scenarios).results[i]?
        = some (some (.error (wasntDispatched ((scenarios.getD i default).event)))))
  ∧ (∀ i, i < scenarios.length →
      ∃ r, (runEvents scenarios name events (initCapState scenarios)).results[i]?
        = some (some r))
  ∧ (∀ i, i < scenarios.length →
      (∀ p ∈ events, p.1 ≠ (scenarios.getD i default).event) →
      (runEvents scenarios name events (initCapState scenarios)).results[i]?
        = some (some (.error (wasntDispatched ((scenarios.getD i default).event)))))
  ∧ (∀ (pm : PixelMatcher) (cd : Bool) (sc : Scenario) (msg : String)
      (ref : Except String Image2d), compareScenario pm cd sc (.error msg) ref
        = .ok (true, false)) := by
  have hinit : ∀ i, i < scenarios.length →
      (initCapState scenarios).results[i]?
        = some (some (.error (wasntDispatched ((scenarios.getD i default).event)))) := by
    intro i hi
    show (initResults scenarios)[i]? = _
    rw [initResults_getElem?, if_pos hi]
  refine ⟨?_, hinit, ?_, ?_, ?_⟩
  · exact (runEvents_results_length scenarios name events (initCapState scenarios)).trans
      (initResults_length scenarios)
  · exact runEvents_populated scenarios name events (initCapState scenarios)
      (initResults_length scenarios)
      (fun i hi => ⟨.error (wasntDispatched ((scenarios.getD i default).event)), hinit i hi⟩)
  · intro i hi hnone
    rw [runEvents_untouched scenarios name events i (initCapState scenarios) hnone]
    exact hinit i hi
  · intro pm cd sc msg ref
    cases ref <;> rfl

/-- Witness for C7: a two-scenario project in which only event "a" fires:
slot 0 holds the captured screenshot, slot 1 still holds its placeholder
error, and comparing slot 1 reports a failed scenario. -/
theorem capture_slots_always_populated_witness :
    (runEvents [⟨"a", "a.png", 0, 0, 0⟩, ⟨"b", "b.png", 0, 0, 1⟩] "proj" [("a", 7)]
      (initCapState [⟨"a", "a.png", 0, 0, 0⟩, ⟨"b", "b.png", 0, 0, 1⟩])).results[1]?
      = some (some (.error (wasntDispatched "b")))
  ∧ compareScenario pixelmatchModel false ⟨"b", "b.png", 0, 0, 1⟩
      (.error (wasntDispatched "b")) (.ok ⟨1, 1, [0, 0, 0, 255]⟩) = .ok (true, false) := by
  have h := capture_slots_always_populated
    [⟨"a", "a.png", 0, 0, 0⟩, ⟨"b", "b.png", 0, 0, 1⟩] "proj" [("a", 7)]
  refine ⟨h.2.2.2.1 1 (by decide) ?_, h.2.2.2.2 pixelmatchModel false ⟨"b", "b.png", 0, 0, 1⟩
    (wasntDispatched "b") (.ok ⟨1, 1, [0, 0, 0, 255]⟩)⟩
  intro p hp
  simp only [List.mem_singleton] at hp
  subst hp
  decide

/-- Claim C2 counterexample: one scenario with event "a"; the callback is
invoked twice with "a" (screenshots 1 then 2).  Contrary to the claim that
the duplicate is dropped, the counter ends at 2 (not 1) and the stored
result is the second screenshot. -/
theorem duplicate_event_cex :
    (runEvents [⟨"a", "a.png", 0, 0, 0⟩] "proj" [("a", 1), ("a", 2)]
      (initCapState [⟨"a", "a.png", 0, 0, 0⟩])).eventCount = 2
  ∧ (runEvents [⟨"a", "a.png", 0, 0, 0⟩] "proj" [("a", 1), ("a", 2)]
      (initCapState [⟨"a", "a.png", 0, 0, 0⟩])).results = [some (.ok 2)]
  ∧ (runEvents [⟨"a", "a.png", 0, 0, 0⟩] "proj" [("a", 1), ("a", 2)]
      (initCapState [⟨"a", "a.png", 0, 0, 0⟩])).eventCount ≠ 1 := by
  refine ⟨rfl, rfl, ?_⟩
  intro h
  rw [show (runEvents [⟨"a", "a.png", 0, 0, 0⟩] "proj" [("a", 1), ("a", 2)]
      (initCapState [⟨"a", "a.png", 0, 0, 0⟩])).eventCount = 2 from rfl] at h
  exact absurd h (by decide)

/-- Claim C2 (amended): only an invocation of `processEvent` with an event
id not declared for the project is logged and dropped (results and counter
unchanged); an invocation with a declared event id always assigns a fresh
screenshot to the event's slot and increments the counter — including a
repeated invocation with the same event, which overwrites the stored
result and increments the counter again. -/
theorem duplicate_event_overwrites (scenarios : List Scenario) (name : String)
    (s1 s2 : Nat) (e : String) (i : Nat) (st : CapState)
    (hi : eventToScenario scenarios e = some i)
    (hlen : i < st.results.length) :
    (processEvent scenarios name s2 e (processEvent scenarios name s1 e st)).eventCount
      = st.eventCount + 2
  ∧ (processEvent scenarios name s1 e st).results[i]? = some (some (.ok s1))
  ∧ (processEvent scenarios name s2 e
      (processEvent scenarios name s1 e st)).results[i]? = some (some (.ok s2))
  ∧ ∀ e2, eventToScenario scenarios e2 = none →
      (processEvent scenarios name s1 e2 st).results = st.results
      ∧ (processEvent scenarios name s1 e2 st).eventCount = st.eventCount := by
  have h1 : processEvent scenarios name s1 e st
      = { st with results := st.results.set i (some (.ok s1)),
                  eventCount := st.eventCount + 1 } := by
    unfold processEvent
    rw [hi]
  have h2 : processEvent scenarios name s2 e (processEvent scenarios name s1 e st)
      = { st with results := (st.results.set i (some (.ok s1))).set i (some (.ok s2)),
                  eventCount := st.eventCount + 2 } := by
    rw [h1]
    unfold processEvent
    rw [hi]
  refine ⟨by rw [h2], ?_, ?_, ?_⟩
  · rw [h1]
    exact List.getElem?_set_self hlen
  · rw [h2]
    exact List.getElem?_set_self (by simpa using hlen)
  · intro e2 he2
    unfold processEvent
    rw [he2]
    exact ⟨rfl, rfl⟩

/-- Witness for the amended C2: the concrete double-"a" run of the
counterexample, via the general theorem. -/
theorem duplicate_event_overwrites_witness :
    (processEvent [⟨"a", "a.png", 0, 0, 0⟩] "proj" 2 "a"
      (processEvent [⟨"a", "a.png", 0, 0, 0⟩] "proj" 1 "a"
        (initCapState [⟨"a", "a.png", 0, 0, 0⟩]))).eventCount = 2
  ∧ (processEvent [⟨"a", "a.png", 0, 0, 0⟩] "proj" 2 "a"
      (processEvent [⟨"a", "a.png", 0, 0, 0⟩] "proj" 1 "a"
        (initCapState [⟨"a", "a.png", 0, 0, 0⟩]))).results[0]? = some (some (.ok 2)) := by
  have h := duplicate_event_overwrites [⟨"a", "a.png", 0, 0, 0⟩] "proj" 1 2 "a" 0
    (initCapState [⟨"a", "a.png", 0, 0, 0⟩]) rfl
    (by rw [show (initCapState [⟨"a", "a.png", 0, 0, 0⟩]).results.length = 1 from rfl]; omega)
  exact ⟨h.1, h.2.2.1⟩

theorem getD_set_self {α : Type _} (l : List α) (i : Nat) (a d : α) (h : i < l.length) :
    (l.set i a).getD i d = a := by
  rw [List.getD_eq_getElem?_getD, List.getElem?_set_self h]
  rfl

theorem getD_set_ne {α : Type _} (l : List α) {i j : Nat} (a d : α) (h : i ≠ j) :
    (l.set i a).getD j d = l.getD j d := by
  rw [List.getD_eq_getElem?_getD, List.getElem?_set_ne h, ← List.getD_eq_getElem?_getD]

theorem findFreeIndex_some : ∀ (l : List (Option Nat)) (j : Nat),
    findFreeIndex l = some j → j < l.length ∧ ∃ c, l.getD j none = some c := by
  intro l
  induction l with
  | nil => intro j h; exact absurd h (by simp [findFreeIndex])
  | cons x xs ih =>
    intro j h
    cases x with
    | some c =>
      obtain rfl : 0 = j := Option.some_inj.mp h
      exact ⟨Nat.succ_pos _, c, rfl⟩
    | none =>
      obtain ⟨j2, hj2, rfl⟩ := Option.map_eq_some'.mp h
      obtain ⟨hlt, c, hc⟩ := ih j2 hj2
      exact ⟨Nat.succ_lt_succ hlt, c, hc⟩

theorem findFreeIndex_none : ∀ l : List (Option Nat), findFreeIndex l = none →
    ∀ j, j < l.length → l.getD j none = none := by
  intro l
  induction l with
  | nil => intro _ j hj; simp at hj
  | cons x xs ih =>
    intro h j hj
    cases x with
    | some c => exact absurd h (by simp [findFreeIndex])
    | none =>
      cases j with
      | zero => rfl
      | succ j2 =>
        have hxs : findFreeIndex xs = none := by
          by_contra hne
          obtain ⟨j3, hj3⟩ := Option.ne_none_iff_exists'.mp hne
          exact absurd (by simp [findFreeIndex, hj3] : findFreeIndex (none :: xs) ≠ none) (by simp [h])
        exact ih hxs j2 (by simpa using hj)

/-- The inductive invariant of the `_capture` scheduling loop: the slot
array keeps its size; a slot is empty exactly when a running task owns it;
running tasks occupy pairwise-distinct slots and pairwise-distinct
projects, all already started; a result is settled exactly for started
projects with no in-flight task, and a settled result holds that project's
own capture output. -/
structure PoolInv (N K : Nat) {Out : Type} (f : Nat → Out) (s : PoolState Out) : Prop where
  slots_len : s.slots.length = K
  results_len : s.results.length = N
  next_le : s.next ≤ N
  run_nodup : s.running.Nodup
  slot_lt : ∀ r ∈ s.running, r.2.1 < K
  slot_busy : ∀ j, j < K → (s.slots.getD j none = none ↔ ∃ p c, (p, j, c) ∈ s.running)
  slot_uniq : ∀ r ∈ s.running, ∀ r2 ∈ s.running, r.2.1 = r2.2.1 → r = r2
  proj_uniq : ∀ r ∈ s.running, ∀ r2 ∈ s.running, r.1 = r2.1 → r = r2
  run_lt : ∀ r ∈ s.running, r.1 < s.next
  res_unstarted : ∀ p, s.next ≤ p → s.results.getD p none = none
  res_running : ∀ r ∈ s.running, s.results.getD r.1 none = none
  res_done : ∀ p, p < s.next →
    (∃ j c, (p, j, c) ∈ s.running) ∨ s.results.getD p none = some (f p)

theorem poolInv_init (N K : Nat) {Out : Type} (f : Nat → Out) :
    PoolInv N K f (initPool Out N K) := by
  constructor
  · simp [initPool]
  · simp [initPool]
  · exact Nat.zero_le N
  · exact List.nodup_nil
  · intro r hr; exact absurd hr (List.not_mem_nil r)
  · intro j hj
    constructor
    · intro h
      rw [show (initPool Out N K).slots = (List.range K).map some from rfl,
        getD_map_of_lt some (List.range K) j none 0 (by simpa using hj)] at h
      exact Option.noConfusion h
    · rintro ⟨p, c, hm⟩
      exact absurd hm (List.not_mem_nil _)
  · intro r hr; exact absurd hr (List.not_mem_nil r)
  · intro r hr; exact absurd hr (List.not_mem_nil r)
  · intro r hr; exact absurd hr (List.not_mem_nil r)
  · intro p _
    show (List.replicate N none).getD p none = none
    rw [List.getD_eq_getElem?_getD, List.getElem?_replicate]
    split <;> rfl
  · intro r hr; exact absurd hr (List.not_mem_nil r)
  · intro p hp; exact absurd hp (Nat.not_lt_zero p)

theorem poolInv_step {N K : Nat} {Out : Type} {f : Nat → Out} {s t : PoolState Out}
    (hs : PoolInv N K f s) (hstep : PoolStep N f s t) : PoolInv N K f t := by
  cases hstep with
  | start j c hn hj hc =>
    obtain ⟨hjlen, -⟩ := findFreeIndex_some s.slots j hj
    have hjK : j < K := hs.slots_len ▸ hjlen
    have hfree : ¬ ∃ p2 c2, (p2, j, c2) ∈ s.running := by
      intro hex
      have := (hs.slot_busy j hjK).mpr hex
      rw [hc] at this
      exact Option.noConfusion this
    constructor
    · show (s.slots.set j none).length = K
      rw [List.length_set]
      exact hs.slots_len
    · exact hs.results_len
    · exact hn
    · exact List.nodup_cons.mpr
        ⟨fun hmem => absurd (hs.run_lt _ hmem) (lt_irrefl _), hs.run_nodup⟩
    · rintro ⟨p1, j1, c1⟩ hr
      rcases List.mem_cons.mp hr with heq | hmr
      · obtain ⟨rfl, rfl, rfl⟩ := (by simpa using heq : _ ∧ _ ∧ _)
        exact hjK
      · exact hs.slot_lt _ hmr
    · intro j2 hj2
      show (s.slots.set j none).getD j2 none = none
        ↔ ∃ p2 c2, (p2, j2, c2) ∈ (s.next, j, c) :: s.running
      by_cases hjj : j = j2
      · subst hjj
        exact iff_of_true (getD_set_self s.slots j none none hjlen)
          ⟨s.next, c, List.mem_cons_self _ _⟩
      · rw [getD_set_ne s.slots none none hjj, hs.slot_busy j2 hj2]
        constructor
        · rintro ⟨p2, c2, hm⟩
          exact ⟨p2, c2, List.mem_cons_of_mem _ hm⟩
        · rintro ⟨p2, c2, hm⟩
          rcases List.mem_cons.mp hm with heq | hm2
          · obtain ⟨-, rfl, -⟩ := (by simpa using heq : _ ∧ _ ∧ _)
            exact absurd rfl hjj
          · exact ⟨p2, c2, hm2⟩
    · rintro ⟨p1, j1, c1⟩ hr ⟨p2, j2, c2⟩ hr2 hslot
      have hslot2 : j1 = j2 := hslot
      subst hslot2
      rcases List.mem_cons.mp hr with heq | hmr
      · obtain ⟨rfl, rfl, rfl⟩ := (by simpa using heq : _ ∧ _ ∧ _)
        rcases List.mem_cons.mp hr2 with heq2 | hmr2
        · exact heq2.symm
        · exact absurd ⟨p2, c2, hmr2⟩ hfree
      · rcases List.mem_cons.mp hr2 with heq2 | hmr2
        · obtain ⟨rfl, rfl, rfl⟩ := (by simpa using heq2 : _ ∧ _ ∧ _)
          exact absurd ⟨p1, c1, hmr⟩ hfree
        · exact hs.slot_uniq _ hmr _ hmr2 rfl
    · rintro ⟨p1, j1, c1⟩ hr ⟨p2, j2, c2⟩ hr2 hproj
      have hproj2 : p1 = p2 := hproj
      subst hproj2
      rcases List.mem_cons.mp hr with heq | hmr
      · obtain ⟨rfl, rfl, rfl⟩ := (by simpa using heq : _ ∧ _ ∧ _)
        rcases List.mem_cons.mp hr2 with heq2 | hmr2
        · exact heq2.symm
        · exact absurd (hs.run_lt _ hmr2) (lt_irrefl _)
      · rcases List.mem_cons.mp hr2 with heq2 | hmr2
        · obtain ⟨rfl, rfl, rfl⟩ := (by simpa using heq2 : _ ∧ _ ∧ _)
          exact absurd (hs.run_lt _ hmr) (lt_irrefl _)
        · exact hs.proj_uniq _ hmr _ hmr2 rfl
    · rintro ⟨p1, j1, c1⟩ hr
      rcases List.mem_cons.mp hr with heq | hmr
      · obtain ⟨rfl, rfl, rfl⟩ := (by simpa using heq : _ ∧ _ ∧ _)
        exact Nat.lt_succ_self _
      · exact Nat.lt_succ_of_lt (hs.run_lt _ hmr)
    · intro p hp
      exact hs.res_unstarted p (le_of_lt hp)
    · rintro ⟨p1, j1, c1⟩ hr
      rcases List.mem_cons.mp hr with heq | hmr
      · obtain ⟨rfl, rfl, rfl⟩ := (by simpa using heq : _ ∧ _ ∧ _)
        exact hs.res_unstarted s.next (le_refl _)
      · exact hs.res_running _ hmr
    · intro p hp
      rcases Nat.lt_succ_iff_lt_or_eq.mp hp with hlt | rfl
      · rcases hs.res_done p hlt with ⟨j2, c2, hm⟩ | hres
        · exact Or.inl ⟨j2, c2, List.mem_cons_of_mem _ hm⟩
        · exact Or.inr hres
      · exact Or.inl ⟨j, c, List.mem_cons_self _ _⟩
  | finish p j c hm =>
    have hjK : j < K := hs.slot_lt (p, j, c) hm
    have hpN : p < s.next := hs.run_lt (p, j, c) hm
    have hplen : p < s.results.length := by
      rw [hs.results_len]
      exact lt_of_lt_of_le hpN hs.next_le
    have hjlen : j < s.slots.length := hs.slots_len ▸ hjK
    have hsub : ∀ r ∈ s.running.erase (p, j, c), r ∈ s.running :=
      fun r hr => List.mem_of_mem_erase hr
    have hmem : ∀ r : Nat × Nat × Nat,
        r ∈ s.running.erase (p, j, c) ↔ r ≠ (p, j, c) ∧ r ∈ s.running :=
      fun r => hs.run_nodup.mem_erase_iff
    constructor
    · show (s.slots.set j (some c)).length = K
      rw [List.length_set]
      exact hs.slots_len
    · show (s.results.set p (some (f p))).length = N
      rw [List.length_set]
      exact hs.results_len
    · exact hs.next_le
    · exact hs.run_nodup.erase _
    · intro r hr
      exact hs.slot_lt r (hsub r hr)
    · intro j2 hj2
      show (s.slots.set j (some c)).getD j2 none = none
        ↔ ∃ p2 c2, (p2, j2, c2) ∈ s.running.erase (p, j, c)
      by_cases hjj : j = j2
      · subst hjj
        rw [getD_set_self s.slots j (some c) none hjlen]
        constructor
        · intro h
          exact Option.noConfusion h
        · rintro ⟨p2, c2, hm2⟩
          obtain ⟨hne, hm3⟩ := (hmem (p2, j, c2)).mp hm2
          exact absurd (hs.slot_uniq (p2, j, c2) hm3 (p, j, c) hm rfl) hne
      · rw [getD_set_ne s.slots (some c) none hjj, hs.slot_busy j2 hj2]
        constructor
        · rintro ⟨p2, c2, hm2⟩
          refine ⟨p2, c2, (hmem (p2, j2, c2)).mpr ⟨fun heq => ?_, hm2⟩⟩
          obtain ⟨-, rfl, -⟩ := (by simpa using heq : _ ∧ _ ∧ _)
          exact hjj rfl
        · rintro ⟨p2, c2, hm2⟩
          exact ⟨p2, c2, hsub _ hm2⟩
    · intro r hr r2 hr2 hslot
      exact hs.slot_uniq r (hsub r hr) r2 (hsub r2 hr2) hslot
    · intro r hr r2 hr2 hproj
      exact hs.proj_uniq r (hsub r hr) r2 (hsub r2 hr2) hproj
    · intro r hr
      exact hs.run_lt r (hsub r hr)
    · intro p2 hp2
      have hp2b : s.next ≤ p2 := hp2
      show (s.results.set p (some (f p))).getD p2 none = none
      rw [getD_set_ne s.results (some (f p)) none (by omega)]
      exact hs.res_unstarted p2 hp2b
    · rintro ⟨p1, j1, c1⟩ hr
      obtain ⟨hne, hm2⟩ := (hmem (p1, j1, c1)).mp hr
      have hrp : p ≠ p1 := by
        intro heq
        subst heq
        exact hne (hs.proj_uniq (p, j1, c1) hm2 (p, j, c) hm rfl)
      show (s.results.set p (some (f p))).getD p1 none = none
      rw [getD_set_ne s.results (some (f p)) none hrp]
      exact hs.res_running _ hm2
    · intro p2 hp2
      show (∃ j2 c2, (p2, j2, c2) ∈ s.running.erase (p, j, c))
        ∨ (s.results.set p (some (f p))).getD p2 none = some (f p2)
      by_cases hpp : p2 = p
      · subst hpp
        exact Or.inr (getD_set_self s.results p2 (some (f p2)) none hplen)
      · rcases hs.res_done p2 hp2 with ⟨j2, c2, hm2⟩ | hres
        · refine Or.inl ⟨j2, c2, (hmem (p2, j2, c2)).mpr ⟨fun heq => ?_, hm2⟩⟩
          obtain ⟨rfl, -, -⟩ := (by simpa using heq : _ ∧ _ ∧ _)
          exact hpp rfl
        · refine Or.inr ?_
          rw [getD_set_ne s.results (some (f p)) none (fun h => hpp h.symm)]
          exact hres

theorem poolInv_reachable {N K : Nat} {Out : Type} {f : Nat → Out} {s : PoolState Out}
    (h : PoolReachable N K f s) : PoolInv N K f s := by
  unfold PoolReachable at h
  induction h with
  | refl => exact poolInv_init N K f
  | tail _ hstep ih => exact poolInv_step ih hstep

theorem pool_terminal {N K : Nat} {Out : Type} {f : Nat → Out} {s : PoolState Out}
    (inv : PoolInv N K f s) (hK : 0 < K)
    (hterm : ∀ t, ¬ PoolStep N f s t) :
    s.running = [] ∧ s.next = N ∧ ∀ p, p < N → s.results.getD p none = some (f p) := by
  have hrun : s.running = [] := by
    cases hr : s.running with
    | nil => rfl
    | cons r rest =>
      rcases r with ⟨p, j, c⟩
      exact absurd (PoolStep.finish s p j c (by rw [hr]; exact List.mem_cons_self _ _))
        (hterm _)
  have hnext : s.next = N := by
    by_contra hne
    have hlt : s.next < N := lt_of_le_of_ne inv.next_le hne
    have h0 : s.slots.getD 0 none ≠ none := by
      intro h0
      obtain ⟨p2, c2, hm⟩ := (inv.slot_busy 0 hK).mp h0
      rw [hrun] at hm
      exact List.not_mem_nil _ hm
    cases hfi : findFreeIndex s.slots with
    | none =>
      exact h0 (findFreeIndex_none s.slots hfi 0 (by rw [inv.slots_len]; exact hK))
    | some j =>
      obtain ⟨hjlt, c, hc⟩ := findFreeIndex_some s.slots j hfi
      exact hterm _ (PoolStep.start s j c hlt hfi hc)
  refine ⟨hrun, hnext, fun p hp => ?_⟩
  rcases inv.res_done p (by omega) with ⟨j, c, hm⟩ | hres
  · rw [hrun] at hm
    exact absurd hm (List.not_mem_nil _)
  · exact hres

/-- Claim C1: capture tasks are started in submission order (the running
and settled projects always form the prefix `0 .. next-1`, a result slot
beyond the loop index is never settled), each settled `results[p]` holds
project `p`'s own capture output whatever the completion order, and when
`_capture` returns (no step possible: the loop ended and `Promise.all`
settled) every project's task has completed and `results[p]` is the
capture output of `projects[p]` for every index. -/
theorem capture_results_by_index {Out : Type} (f : Nat → Out) (N K : Nat) (hK : 0 < K)
    (s : PoolState Out) (hs : PoolReachable N K f s) :
    (∀ r ∈ s.running, r.1 < s.next)
  ∧ (∀ p, s.next ≤ p → s.results.getD p none = none)
  ∧ (∀ p, p < s.next → s.results.getD p none = none
      ∨ s.results.getD p none = some (f p))
  ∧ ((∀ t, ¬ PoolStep N f s t) →
      s.running = [] ∧ s.next = N ∧ ∀ p, p < N → s.results.getD p none = some (f p)) := by
  have inv := poolInv_reachable hs
  refine ⟨inv.run_lt, inv.res_unstarted, fun p hp => ?_, fun ht => pool_terminal inv hK ht⟩
  rcases inv.res_done p hp with ⟨j, c, hm⟩ | hres
  · exact Or.inl (inv.res_running (p, j, c) hm)
  · exact Or.inr hres

/-- Witness for C1: two projects, one context; the run start 0, finish 0,
start 1, finish 1 reaches a state in which no further step is possible and
both result slots hold their own project's output. -/
theorem capture_results_by_index_witness :
    (⟨2, [some 0], [], [some 0, some 10]⟩ : PoolState Nat).results.getD 0 none = some 0
  ∧ (⟨2, [some 0], [], [some 0, some 10]⟩ : PoolState Nat).results.getD 1 none
      = some 10 := by
  have h1 : PoolStep 2 (fun p => 10 * p) (initPool Nat 2 1)
      ⟨1, [none], [(0, 0, 0)], [none, none]⟩ :=
    PoolStep.start (initPool Nat 2 1) 0 0 (by decide) rfl rfl
  have h2 : PoolStep 2 (fun p => 10 * p) ⟨1, [none], [(0, 0, 0)], [none, none]⟩
      ⟨1, [some 0], [], [some 0, none]⟩ :=
    PoolStep.finish ⟨1, [none], [(0, 0, 0)], [none, none]⟩ 0 0 0
      (List.mem_cons_self _ _)
  have h3 : PoolStep 2 (fun p => 10 * p) ⟨1, [some 0], [], [some 0, none]⟩
      ⟨2, [none], [(1, 0, 0)], [some 0, none]⟩ :=
    PoolStep.start ⟨1, [some 0], [], [some 0, none]⟩ 0 0 (by decide) rfl rfl
  have h4 : PoolStep 2 (fun p => 10 * p) ⟨2, [none], [(1, 0, 0)], [some 0, none]⟩
      ⟨2, [some 0], [], [some 0, some 10]⟩ :=
    PoolStep.finish ⟨2, [none], [(1, 0, 0)], [some 0, none]⟩ 1 0 0
      (List.mem_cons_self _ _)
  have hr : PoolReachable 2 1 (fun p => 10 * p)
      (⟨2, [some 0], [], [some 0, some 10]⟩ : PoolState Nat) :=
    Relation.ReflTransGen.tail
      (Relation.ReflTransGen.tail
        (Relation.ReflTransGen.tail (Relation.ReflTransGen.tail Relation.ReflTransGen.refl h1)
          h2) h3) h4
  have hterm : ∀ t, ¬ PoolStep 2 (fun p => 10 * p)
      (⟨2, [some 0], [], [some 0, some 10]⟩ : PoolState Nat) t := by
    intro t ht
    cases ht with
    | start j c hn hj hc => exact absurd hn (by decide)
    | finish p j c hm => exact List.not_mem_nil _ hm
  have h := capture_results_by_index (fun p => 10 * p) 2 1 (by decide)
    (⟨2, [some 0], [], [some 0, some 10]⟩ : PoolState Nat) hr
  obtain ⟨-, -, hall⟩ := (h.2.2.2 hterm)
  exact ⟨hall 0 (by decide), hall 1 (by decide)⟩

/-- Claim C9: the context count is `min(N, configured-or-computed bound)`;
in every reachable state of the scheduling loop at most `K` capturers are
concurrently active, the running capturers occupy pairwise-distinct
contexts whose slots are marked busy for exactly as long as the capturer
runs (freed only when it settles, on success and error alike — the
`finish` step is the only transition restoring a slot), and when no step
remains (every started capturer terminated and the loop cannot advance)
all `N` projects have been started and completed. -/
theorem context_pool_bounded {Out : Type} (f : Nat → Out) (mc : Option Nat)
    (cpu N K : Nat) (hK : K = contextsCount mc cpu N) (hKpos : 0 < K)
    (s : PoolState Out) (hs : PoolReachable N K f s) :
    K = min N (contextsUpperBound mc cpu)
  ∧ s.running.length ≤ K
  ∧ (∀ r ∈ s.running, ∀ r2 ∈ s.running, r.2.1 = r2.2.1 → r = r2)
  ∧ (∀ r ∈ s.running, s.slots.getD r.2.1 none = none)
  ∧ ((∀ t, ¬ PoolStep N f s t) →
      s.next = N ∧ s.running = []
      ∧ ∀ p, p < N → s.results.getD p none = some (f p)) := by
  have inv := poolInv_reachable hs
  refine ⟨hK, ?_, inv.slot_uniq, fun r hr => ?_, fun ht => ?_⟩
  · have hnodup : (s.running.map (fun r => r.2.1)).Nodup :=
      List.Nodup.map_on inv.slot_uniq inv.run_nodup
    have hsub : (s.running.map (fun r => r.2.1)).toFinset ⊆ Finset.range K := by
      intro x hx
      rw [List.mem_toFinset] at hx
      obtain ⟨r, hr, rfl⟩ := List.mem_map.mp hx
      exact Finset.mem_range.mpr (inv.slot_lt r hr)
    have hcard := Finset.card_le_card hsub
    rw [List.toFinset_card_of_nodup hnodup, Finset.card_range] at hcard
    simpa using hcard
  · exact (inv.slot_busy r.2.1 (inv.slot_lt r hr)).mpr ⟨r.1, r.2.2, hr⟩
  · have ht2 := pool_terminal inv hKpos ht
    exact ⟨ht2.2.1, ht2.1, ht2.2.2⟩

/-- Witness for C9: the same two-project, one-context run; with
`maxContexts = 1` configured, `K = contextsCount (some 1) 4 2 = 1`, never
more than one capturer is active and the terminal state has started and
completed both projects. -/
theorem context_pool_bounded_witness :
    (⟨2, [some 0], [], [some 0, some 10]⟩ : PoolState Nat).running.length ≤ 1
  ∧ (⟨2, [some 0], [], [some 0, some 10]⟩ : PoolState Nat).next = 2 := by
  have h1 : PoolStep 2 (fun p => 10 * p) (initPool Nat 2 1)
      ⟨1, [none], [(0, 0, 0)], [none, none]⟩ :=
    PoolStep.start (initPool Nat 2 1) 0 0 (by decide) rfl rfl
  have h2 : PoolStep 2 (fun p => 10 * p) ⟨1, [none], [(0, 0, 0)], [none, none]⟩
      ⟨1, [some 0], [], [some 0, none]⟩ :=
    PoolStep.finish ⟨1, [none], [(0, 0, 0)], [none, none]⟩ 0 0 0
      (List.mem_cons_self _ _)
  have h3 : PoolStep 2 (fun p => 10 * p) ⟨1, [some 0], [], [some 0, none]⟩
      ⟨2, [none], [(1, 0, 0)], [some 0, none]⟩ :=
    PoolStep.start ⟨1, [some 0], [], [some 0, none]⟩ 0 0 (by decide) rfl rfl
  have h4 : PoolStep 2 (fun p => 10 * p) ⟨2, [none], [(1, 0, 0)], [some 0, none]⟩
      ⟨2, [some 0], [], [some 0, some 10]⟩ :=
    PoolStep.finish ⟨2, [none], [(1, 0, 0)], [some 0, none]⟩ 1 0 0
      (List.mem_cons_self _ _)
  have hr : PoolReachable 2 1 (fun p => 10 * p)
      (⟨2, [some 0], [], [some 0, some 10]⟩ : PoolState Nat) :=
    Relation.ReflTransGen.tail
      (Relation.ReflTransGen.tail
        (Relation.ReflTransGen.tail (Relation.ReflTransGen.tail Relation.ReflTransGen.refl h1)
          h2) h3) h4
  have hterm : ∀ t, ¬ PoolStep 2 (fun p => 10 * p)
      (⟨2, [some 0], [], [some 0, some 10]⟩ : PoolState Nat) t := by
    intro t ht
    cases ht with
    | start j c hn hj hc => exact absurd hn (by decide)
    | finish p j c hm => exact List.not_mem_nil _ hm
  have h := context_pool_bounded (fun p => 10 * p) (some 1) 4 2 1 rfl (by decide)
    (⟨2, [some 0], [], [some 0, some 10]⟩ : PoolState Nat) hr
  exact ⟨h.2.1, (h.2.2.2.2 hterm).1⟩

end WLEST
